import Mathlib

/-!
Verification of the player-movement / camera-follow core of a small
third-person 3D game (one source file, `src/App.tsx`).

The state and per-frame / per-event update functions are embedded
shallowly: 3D vectors become a `Vec3` record over `ℝ`, the shared
`PlayerState` record is translated field-for-field, joystick events
carry `Option ℝ` coordinates (the widget reports `number | null`),
and each handler (`handleMove`, `handleStop`) and per-frame callback
(`Player`'s integration step, `FollowCamera`'s lerp step,
`ChessboardPlane`'s recentering, `LoadingScreen`'s progress step,
`createChessboardTexture`) becomes a pure function, translated from
the source, including the underlying three.js primitives it calls
(`Euler`-to-quaternion conversion, `Vector3.applyQuaternion`,
`Object3D.translateZ`, `Vector3.lerp`).
-/

open scoped Classical

/-- A 3D vector with real components, standing for `THREE.Vector3` /
`Vector3Tuple` in the source. -/
structure Vec3 where
  x : ℝ
  y : ℝ
  z : ℝ

instance : Add Vec3 := ⟨fun a b => ⟨a.x + b.x, a.y + b.y, a.z + b.z⟩⟩

instance : Sub Vec3 := ⟨fun a b => ⟨a.x - b.x, a.y - b.y, a.z - b.z⟩⟩

instance : SMul ℝ Vec3 := ⟨fun c v => ⟨c * v.x, c * v.y, c * v.z⟩⟩

theorem Vec3.add_def (a b : Vec3) : a + b = ⟨a.x + b.x, a.y + b.y, a.z + b.z⟩ := rfl

theorem Vec3.sub_def (a b : Vec3) : a - b = ⟨a.x - b.x, a.y - b.y, a.z - b.z⟩ := rfl

theorem Vec3.smul_def (c : ℝ) (v : Vec3) : c • v = ⟨c * v.x, c * v.y, c * v.z⟩ := rfl

/-- Euclidean length of a `Vec3` (`THREE.Vector3.length`). -/
noncomputable def norm3 (v : Vec3) : ℝ :=
  Real.sqrt (v.x ^ 2 + v.y ^ 2 + v.z ^ 2)

/-- The shared player state (`interface PlayerState` in the source):
position, heading angle in radians, forward speed per frame tick, hit
points. -/
structure PlayerState where
  position : Vec3
  rotation : ℝ
  speed : ℝ
  hp : ℝ

/-- The initial state in `App`:
`{ position: [0, 11.5, 0], rotation: 0, speed: 0, hp: 100 }`. -/
noncomputable def initialState : PlayerState :=
  { position := ⟨0, 11.5, 0⟩, rotation := 0, speed := 0, hp := 100 }

/-- JavaScript `Math.atan2 (y, x)` (finite arguments; the source never
produces `±0`-sensitive or non-finite inputs). -/
noncomputable def atan2 (y x : ℝ) : ℝ :=
  if 0 < x then Real.arctan (y / x)
  else if x < 0 then
    (if 0 ≤ y then Real.arctan (y / x) + Real.pi
     else Real.arctan (y / x) - Real.pi)
  else if 0 < y then Real.pi / 2
  else if y < 0 then -(Real.pi / 2)
  else 0

/-- `const maxSpeed = 55` in `handleMove`. -/
noncomputable def maxSpeed : ℝ := 55

/-- `handleMove` in `App`: on a joystick move event with coordinates
`x, y : number | null`, if both are non-null set
`rotation := Math.atan2(x, -y)` and
`speed := Math.min(1, Math.sqrt(x*x + y*y) / 50) * maxSpeed`;
otherwise leave the state untouched. -/
noncomputable def handleMove (st : PlayerState) (x y : Option ℝ) : PlayerState :=
  match x, y with
  | some xv, some yv =>
    { st with
      rotation := atan2 xv (-yv)
      speed := min 1 (Real.sqrt (xv * xv + yv * yv) / 50) * maxSpeed }
  | _, _ => st

/-- `handleStop` in `App`: set `speed := 0`, leave everything else. -/
noncomputable def handleStop (st : PlayerState) : PlayerState :=
  { st with speed := 0 }

/-- A quaternion `(x, y, z, w)`, standing for `THREE.Quaternion`. -/
structure Quat where
  x : ℝ
  y : ℝ
  z : ℝ
  w : ℝ

/-- `THREE.Quaternion.setFromEuler` for an `Euler(ex, ey, ez)` with the
default `'XYZ'` order (the `<group rotation={[0, state.rotation, 0]}>`
prop uses the default order). -/
noncomputable def quatFromEulerXYZ (ex ey ez : ℝ) : Quat :=
  let c1 := Real.cos (ex / 2)
  let c2 := Real.cos (ey / 2)
  let c3 := Real.cos (ez / 2)
  let s1 := Real.sin (ex / 2)
  let s2 := Real.sin (ey / 2)
  let s3 := Real.sin (ez / 2)
  { x := s1 * c2 * c3 + c1 * s2 * s3
    y := c1 * s2 * c3 - s1 * c2 * s3
    z := c1 * c2 * s3 + s1 * s2 * c3
    w := c1 * c2 * c3 - s1 * s2 * s3 }

/-- `THREE.Vector3.applyQuaternion`: with `t = 2 * cross(q.xyz, v)`,
return `v + q.w * t + cross(q.xyz, t)`, written out componentwise as
in the three.js source. -/
noncomputable def applyQuaternion (q : Quat) (v : Vec3) : Vec3 :=
  let tx := 2 * (q.y * v.z - q.z * v.y)
  let ty := 2 * (q.z * v.x - q.x * v.z)
  let tz := 2 * (q.x * v.y - q.y * v.x)
  { x := v.x + q.w * tx + q.y * tz - q.z * ty
    y := v.y + q.w * ty + q.z * tx - q.x * tz
    z := v.z + q.w * tz + q.x * ty - q.y * tx }

/-- `THREE.Object3D.translateZ(dist)` on a node whose quaternion is `q`
and whose position is `p`: translate along the local z axis, i.e.
`p + dist * applyQuaternion q (0,0,1)` (via `translateOnAxis`). -/
noncomputable def translateZ (q : Quat) (p : Vec3) (dist : ℝ) : Vec3 :=
  p + dist • applyQuaternion q ⟨0, 0, 1⟩

/-- The `useFrame` body of `Player`: the group node holds the player's
position with local rotation `[0, state.rotation, 0]`; the frame calls
`translateZ(state.speed)` and publishes the node's new position back
into the state (the functional update keeps `rotation`, `speed`, `hp`). -/
noncomputable def playerFrame (st : PlayerState) : PlayerState :=
  { st with
    position := translateZ (quatFromEulerXYZ 0 st.rotation 0) st.position st.speed }

/-- The `useFrame` body of `ChessboardPlane`: set the plane mesh's
position to `(playerPosition[0], 0, playerPosition[2])` where
`playerPosition` is the component's prop. -/
noncomputable def chessboardPlanePos (playerPosition : Vec3) : Vec3 :=
  ⟨playerPosition.x, 0, playerPosition.z⟩

/-- The argument `App` actually passes to `ChessboardPlane`:
the constant literal `[0, 0, 0]` (`<ChessboardPlane playerPosition={[0,0,0]} />`). -/
noncomputable def appChessboardArg : Vec3 := ⟨0, 0, 0⟩

/-- The ground plane's position on any frame as wired in `App`: the
component recenters to its prop, and the prop is `appChessboardArg`,
whatever the live `playerState` is. -/
noncomputable def appPlanePos (_playerState : PlayerState) : Vec3 :=
  chessboardPlanePos appChessboardArg

/-- `const cameraOffset = new THREE.Vector3(0, 45, 0)` in `FollowCamera`. -/
noncomputable def cameraOffset : Vec3 := ⟨0, 45, 0⟩

/-- `const lerpFactor = 0.03` in `FollowCamera`. -/
noncomputable def lerpFactor : ℝ := 0.03

/-- `THREE.Vector3.lerp(v, alpha)`: each component moves by
`(v.c - this.c) * alpha`. -/
noncomputable def lerpV (a b : Vec3) (t : ℝ) : Vec3 :=
  ⟨a.x + (b.x - a.x) * t, a.y + (b.y - a.y) * t, a.z + (b.z - a.z) * t⟩

/-- The `useFrame` body of `FollowCamera`: with `target` the player's
position, `desiredPosition = target + cameraOffset`, and
`camera.position.lerp(desiredPosition, lerpFactor)`. -/
noncomputable def followStep (target cam : Vec3) : Vec3 :=
  lerpV cam (target + cameraOffset) lerpFactor

/-- The camera position after `n` frames of `FollowCamera` with a fixed
player position `target`, starting from camera position `start`. -/
noncomputable def camSeq (target start : Vec3) : ℕ → Vec3
  | 0 => start
  | n + 1 => followStep target (camSeq target start n)

/-- `const size = 32` in `createChessboardTexture`. -/
def chessSize : Nat := 32

/-- The light fill color `'#0f6911'` chosen when `(x + y) % 2 === 0`. -/
def lightColor : String := "#0f6911"

/-- The dark fill color `'#005c02'` (the `else` branch). -/
def darkColor : String := "#005c02"

/-- The fill color `createChessboardTexture` paints at texel `(x, y)`:
`(x + y) % 2 === 0 ? '#0f6911' : '#005c02'`. -/
def texelColor (x y : Nat) : String :=
  if (x + y) % 2 = 0 then lightColor else darkColor

/-- The raster `createChessboardTexture` draws on its canvas: the outer
loop runs `y` over `0..size-1`, the inner loop runs `x` over
`0..size-1`, and `fillRect(x, y, 1, 1)` paints one texel; row `y` of
the raster is the list of colors at `(0, y) .. (size-1, y)`. -/
def chessboardRaster : List (List String) :=
  (List.range chessSize).map fun y =>
    (List.range chessSize).map fun x => texelColor x y

/-- The `useFrame` body of `LoadingScreen`:
`setProgress(prev => Math.min(prev + 0.5, 100))`, over exact rationals. -/
def loadingStep (prev : ℚ) : ℚ := min (prev + 0.5) 100

/-- The displayed loading percentage after `n` frames, from the initial
`useState(0)`. -/
def loadingProgress (n : ℕ) : ℚ := loadingStep^[n] 0

/-- The operations that write the shared `PlayerState`: a joystick move
event, a joystick stop event, and the per-frame movement integration. -/
inductive GameEvent where
  | move (x y : Option ℝ)
  | stop
  | frame

/-- Dispatch one event to its handler from the source. -/
noncomputable def applyEvent (st : PlayerState) : GameEvent → PlayerState
  | .move x y => handleMove st x y
  | .stop => handleStop st
  | .frame => playerFrame st

/-- The player state after a whole run: fold any sequence of events over
the initial state. -/
noncomputable def runEvents (evs : List GameEvent) : PlayerState :=
  evs.foldl applyEvent initialState

theorem applyQuat_yRot (r : ℝ) :
    applyQuaternion (quatFromEulerXYZ 0 r 0) ⟨0, 0, 1⟩ =
      ⟨Real.sin r, 0, Real.cos r⟩ := by
  have hs : Real.sin r = 2 * Real.sin (r / 2) * Real.cos (r / 2) := by
    have h1 := Real.sin_two_mul (r / 2)
    rw [show 2 * (r / 2) = r by ring] at h1
    exact h1
  have hc : Real.cos r = 1 - 2 * Real.sin (r / 2) ^ 2 := by
    have h1 := Real.cos_two_mul (r / 2)
    have h2 := Real.sin_sq_add_cos_sq (r / 2)
    rw [show 2 * (r / 2) = r by ring] at h1
    linarith
  simp only [quatFromEulerXYZ, applyQuaternion, zero_div, Real.sin_zero,
    Real.cos_zero]
  rw [Vec3.mk.injEq]
  refine ⟨by rw [hs]; ring, by ring, by rw [hc]; ring⟩

theorem translateZ_yRot (p : Vec3) (r s : ℝ) :
    translateZ (quatFromEulerXYZ 0 r 0) p s =
      ⟨p.x + s * Real.sin r, p.y, p.z + s * Real.cos r⟩ := by
  rw [translateZ, applyQuat_yRot, Vec3.smul_def, Vec3.add_def, Vec3.mk.injEq]
  refine ⟨by ring, by ring, by ring⟩

theorem playerFrame_position (st : PlayerState) :
    (playerFrame st).position =
      ⟨st.position.x + st.speed * Real.sin st.rotation, st.position.y,
        st.position.z + st.speed * Real.cos st.rotation⟩ :=
  translateZ_yRot st.position st.rotation st.speed

theorem playerFrame_speed_zero (p : Vec3) (r h : ℝ) :
    playerFrame ⟨p, r, 0, h⟩ = ⟨p, r, 0, h⟩ := by
  obtain ⟨px, py, pz⟩ := p
  simp only [playerFrame]
  rw [translateZ_yRot]
  norm_num

/-- Claim C2: one integration step of the movement integrator maps
position `P`, rotation `R`, speed `S` to
`P + S * (sin R, 0, cos R)` (the local `+z` axis rotated by `R` about
the vertical axis); from position `(0,0,0)`, rotation `0`, speed `10`
one step yields `(0,0,10)`; and every step leaves the `y`-coordinate
unchanged. -/
theorem movement_integrator_step (st : PlayerState) :
    (playerFrame st).position =
      ⟨st.position.x + st.speed * Real.sin st.rotation, st.position.y,
        st.position.z + st.speed * Real.cos st.rotation⟩ ∧
    (playerFrame st).position.y = st.position.y ∧
    (playerFrame ⟨⟨0, 0, 0⟩, 0, 10, st.hp⟩).position = ⟨0, 0, 10⟩ := by
  refine ⟨playerFrame_position st, ?_, ?_⟩
  · rw [playerFrame_position st]
  · rw [playerFrame_position ⟨⟨0, 0, 0⟩, 0, 10, st.hp⟩, Vec3.mk.injEq]
    norm_num [Real.sin_zero, Real.cos_zero]

/-- Claim C6: with speed `0` the integrator is a no-op on the whole
state, so any number of integration frames leaves the position
unchanged. -/
theorem movement_speed_zero_idempotent (p : Vec3) (r h : ℝ) (n : ℕ) :
    playerFrame ⟨p, r, 0, h⟩ = ⟨p, r, 0, h⟩ ∧
    (playerFrame^[n] ⟨p, r, 0, h⟩).position = p := by
  refine ⟨playerFrame_speed_zero p r h, ?_⟩
  rw [Function.iterate_fixed (playerFrame_speed_zero p r h) n]

/-- Claim C3: a move event with non-null coordinates `(x, y)` publishes
rotation `atan2 x (-y)` and speed `55 * min 1 (sqrt (x^2 + y^2) / 50)`;
for `x^2 + y^2 ≤ 50^2` the speed lies in `[0, 55]`; and the event
`(0, -50)` yields rotation `0` and speed `55`. -/
theorem input_move_event (st : PlayerState) (x y : ℝ) :
    (handleMove st (some x) (some y)).rotation = atan2 x (-y) ∧
    (handleMove st (some x) (some y)).speed =
      55 * min 1 (Real.sqrt (x ^ 2 + y ^ 2) / 50) ∧
    (x ^ 2 + y ^ 2 ≤ 50 ^ 2 →
      0 ≤ (handleMove st (some x) (some y)).speed ∧
        (handleMove st (some x) (some y)).speed ≤ 55) ∧
    (handleMove st (some 0) (some (-50))).rotation = 0 ∧
    (handleMove st (some 0) (some (-50))).speed = 55 := by
  have hmin0 : 0 ≤ min 1 (Real.sqrt (x * x + y * y) / 50) :=
    le_min zero_le_one (div_nonneg (Real.sqrt_nonneg _) (by norm_num))
  refine ⟨rfl, ?_, fun _ => ⟨?_, ?_⟩, ?_, ?_⟩
  · show min 1 (Real.sqrt (x * x + y * y) / 50) * maxSpeed = _
    rw [maxSpeed, show x * x + y * y = x ^ 2 + y ^ 2 by ring, mul_comm]
  · exact mul_nonneg hmin0 (by norm_num [maxSpeed])
  · show min 1 (Real.sqrt (x * x + y * y) / 50) * maxSpeed ≤ 55
    rw [maxSpeed]
    calc min 1 (Real.sqrt (x * x + y * y) / 50) * 55 ≤ 1 * 55 :=
          mul_le_mul_of_nonneg_right (min_le_left _ _) (by norm_num)
      _ = 55 := one_mul 55
  · show atan2 0 (-(-50 : ℝ)) = 0
    rw [show (-(-50 : ℝ)) = 50 by norm_num]
    unfold atan2
    rw [if_pos (by norm_num : (0 : ℝ) < 50)]
    simp [Real.arctan_zero]
  · show min 1 (Real.sqrt ((0 : ℝ) * 0 + (-50) * -50) / 50) * maxSpeed = 55
    have hsq : Real.sqrt ((0 : ℝ) * 0 + (-50) * -50) = 50 := by
      rw [show ((0 : ℝ) * 0 + (-50) * -50) = 50 ^ 2 by norm_num]
      exact Real.sqrt_sq (by norm_num)
    rw [hsq, maxSpeed]
    norm_num

/-- Claim C5: a stop event sets speed to `0` and leaves rotation (and
the rest of the state) at its last value, and stop is idempotent: any
number of stop events after the first changes nothing. -/
theorem input_stop_event (st : PlayerState) (n : ℕ) :
    (handleStop st).speed = 0 ∧
    (handleStop st).rotation = st.rotation ∧
    (handleStop st).position = st.position ∧
    (handleStop st).hp = st.hp ∧
    handleStop^[n + 1] st = handleStop st := by
  refine ⟨rfl, rfl, rfl, rfl, ?_⟩
  rw [Function.iterate_succ_apply]
  exact Function.iterate_fixed rfl n

/-- Claim C8: a move event in which `x` or `y` is null leaves the whole
player state unchanged (and raises nothing: the handler is total). -/
theorem input_move_null_ignored (st : PlayerState) (ox oy : Option ℝ) :
    handleMove st none oy = st ∧ handleMove st ox none = st := by
  constructor
  · cases oy <;> rfl
  · cases ox <;> rfl

theorem camSeq_closed (t s : Vec3) (n : ℕ) :
    camSeq t s n = t + cameraOffset - (0.97 : ℝ) ^ n • (t + cameraOffset - s) := by
  obtain ⟨tx, ty, tz⟩ := t
  obtain ⟨sx, sy, sz⟩ := s
  induction n with
  | zero =>
    simp only [camSeq, pow_zero, cameraOffset, Vec3.add_def, Vec3.sub_def,
      Vec3.smul_def]
    rw [Vec3.mk.injEq]
    refine ⟨by ring, by ring, by ring⟩
  | succ n ih =>
    simp only [camSeq, followStep, lerpV, lerpFactor, cameraOffset, Vec3.add_def,
      Vec3.sub_def, Vec3.smul_def] at ih ⊢
    rw [ih, pow_succ, Vec3.mk.injEq]
    refine ⟨by ring, by ring, by ring⟩

theorem camSeq_remaining (t s : Vec3) (n : ℕ) :
    t + cameraOffset - camSeq t s n = (0.97 : ℝ) ^ n • (t + cameraOffset - s) := by
  rw [camSeq_closed]
  simp only [cameraOffset, Vec3.add_def, Vec3.sub_def, Vec3.smul_def]
  rw [Vec3.mk.injEq]
  refine ⟨by ring, by ring, by ring⟩

theorem norm3_smul (c : ℝ) (v : Vec3) : norm3 (c • v) = |c| * norm3 v := by
  simp only [norm3, Vec3.smul_def]
  rw [show (c * v.x) ^ 2 + (c * v.y) ^ 2 + (c * v.z) ^ 2 =
        c ^ 2 * (v.x ^ 2 + v.y ^ 2 + v.z ^ 2) by ring,
    Real.sqrt_mul (sq_nonneg c), Real.sqrt_sq_eq_abs]

/-- Claim C4: each frame the camera lerps toward
`desired = playerPosition + (0, 45, 0)` with factor `0.03`, so from any
start the position after `n` frames is exactly
`desired - (desired - start) * 0.97 ^ n`, and after `100` frames the
remaining distance to `desired` is below 5% of the initial distance. -/
theorem camera_follower_convergence (t s : Vec3) (n : ℕ)
    (h : 0 < norm3 (t + cameraOffset - s)) :
    camSeq t s n = t + cameraOffset - (0.97 : ℝ) ^ n • (t + cameraOffset - s) ∧
    norm3 (t + cameraOffset - camSeq t s 100) <
      0.05 * norm3 (t + cameraOffset - s) := by
  refine ⟨camSeq_closed t s n, ?_⟩
  rw [camSeq_remaining, norm3_smul,
    abs_of_nonneg (pow_nonneg (by norm_num : (0:ℝ) ≤ 0.97) 100)]
  exact mul_lt_mul_of_pos_right (by norm_num : (0.97 : ℝ) ^ 100 < 0.05) h

/-- Witness for `camera_follower_convergence`: player at the origin,
camera starting at the origin; the initial distance to the desired
overhead position is `45 > 0`. -/
theorem camera_follower_convergence_witness :
    0 < norm3 ((⟨0, 0, 0⟩ : Vec3) + cameraOffset - ⟨0, 0, 0⟩) ∧
    norm3 ((⟨0, 0, 0⟩ : Vec3) + cameraOffset - camSeq ⟨0, 0, 0⟩ ⟨0, 0, 0⟩ 100) <
      0.05 * norm3 ((⟨0, 0, 0⟩ : Vec3) + cameraOffset - ⟨0, 0, 0⟩) := by
  have hv : ((⟨0, 0, 0⟩ : Vec3) + cameraOffset - ⟨0, 0, 0⟩) = ⟨0, 45, 0⟩ := by
    simp only [cameraOffset, Vec3.add_def, Vec3.sub_def]
    norm_num
  have h45 : norm3 ((⟨0, 0, 0⟩ : Vec3) + cameraOffset - ⟨0, 0, 0⟩) = 45 := by
    rw [hv]
    simp only [norm3]
    rw [show (0 : ℝ) ^ 2 + (45 : ℝ) ^ 2 + (0 : ℝ) ^ 2 = 45 ^ 2 by norm_num]
    exact Real.sqrt_sq (by norm_num)
  have h : 0 < norm3 ((⟨0, 0, 0⟩ : Vec3) + cameraOffset - ⟨0, 0, 0⟩) := by
    rw [h45]; norm_num
  exact ⟨h, (camera_follower_convergence ⟨0, 0, 0⟩ ⟨0, 0, 0⟩ 100 h).2⟩

/-- Claim C7: the generated raster is exactly 32×32 texels; texel
`(x, y)` is the light color iff `(x + y)` is even; exactly two distinct
colors occur; and horizontally adjacent texels always differ. (The
generation is a closed function of the fixed constants `chessSize`,
`lightColor`, `darkColor`, hence deterministic.) -/
theorem texture_synthesis_checkerboard :
    chessboardRaster.length = 32 ∧
    (∀ row ∈ chessboardRaster, row.length = 32) ∧
    (∀ y < 32, ∀ x < 32,
      (chessboardRaster.getD y []).getD x "" =
        (if (x + y) % 2 = 0 then lightColor else darkColor)) ∧
    lightColor ≠ darkColor ∧
    (∀ y < 32, ∀ x < 32,
      texelColor x y = lightColor ∨ texelColor x y = darkColor) ∧
    (∀ y < 32, ∀ x < 31, texelColor (x + 1) y ≠ texelColor x y) := by
  refine ⟨by decide, by decide, by decide, by decide, by decide, by decide⟩

theorem loadingProgress_succ (n : ℕ) :
    loadingProgress (n + 1) = min (loadingProgress n + 0.5) 100 := by
  simp only [loadingProgress, Function.iterate_succ_apply', loadingStep]

theorem loadingProgress_bounds (n : ℕ) :
    0 ≤ loadingProgress n ∧ loadingProgress n ≤ 100 := by
  induction n with
  | zero => simp [loadingProgress]
  | succ n ih =>
    obtain ⟨h0, h100⟩ := ih
    rw [loadingProgress_succ]
    constructor
    · exact le_min (by linarith) (by norm_num)
    · exact min_le_right _ _

/-- Claim C9: the displayed loading percentage starts at `0`, evolves
per frame as `progress := min (progress + 0.5) 100` (a function of the
previous display value only, not of any loading state), and is
monotonically non-decreasing and always within `[0, 100]`. -/
theorem loading_progress_fabricated (n : ℕ) :
    loadingProgress 0 = 0 ∧
    loadingProgress (n + 1) = min (loadingProgress n + 0.5) 100 ∧
    loadingProgress n ≤ loadingProgress (n + 1) ∧
    0 ≤ loadingProgress n ∧ loadingProgress n ≤ 100 := by
  obtain ⟨h0, h100⟩ := loadingProgress_bounds n
  refine ⟨rfl, loadingProgress_succ n, ?_, h0, h100⟩
  rw [loadingProgress_succ]
  exact le_min (by linarith) h100

theorem applyEvent_hp (st : PlayerState) (e : GameEvent) :
    (applyEvent st e).hp = st.hp := by
  cases e with
  | move x y => cases x <;> cases y <;> rfl
  | stop => rfl
  | frame => rfl

/-- Claim C10: no operation writes the `hp` field — the move handler,
the stop handler, and the per-frame integration each preserve it — so
after any sequence of events from the initial state, `hp` is still its
initial value `100`. -/
theorem hp_never_written (evs : List GameEvent) :
    (∀ st e, (applyEvent st e).hp = st.hp) ∧ (runEvents evs).hp = 100 := by
  have main : ∀ (l : List GameEvent) (st : PlayerState),
      (l.foldl applyEvent st).hp = st.hp := by
    intro l
    induction l with
    | nil => intro st; rfl
    | cons e t ih => intro st; rw [List.foldl_cons, ih, applyEvent_hp]
  exact ⟨applyEvent_hp, main evs initialState⟩

/-- Claim C1 is refuted by the wiring in `App`: `ChessboardPlane`
recenters the plane to its `playerPosition` prop, but `App` passes the
constant literal `[0,0,0]`, not the live player position. After the
events `move (0, -50)` then one integration frame, the player stands at
`(0, 11.5, 55)`; the claimed plane position is `(0, 0, 55)`, yet the
plane as wired sits at `(0, 0, 0)`. -/
theorem plane_recentering_defect :
    (runEvents [.move (some 0) (some (-50)), .frame]).position = ⟨0, 11.5, 55⟩ ∧
    appPlanePos (runEvents [.move (some 0) (some (-50)), .frame]) = ⟨0, 0, 0⟩ ∧
    chessboardPlanePos
        (runEvents [.move (some 0) (some (-50)), .frame]).position = ⟨0, 0, 55⟩ ∧
    appPlanePos (runEvents [.move (some 0) (some (-50)), .frame]) ≠
      chessboardPlanePos
        (runEvents [.move (some 0) (some (-50)), .frame]).position := by
  have hrot : atan2 0 (-(-50 : ℝ)) = 0 := by
    rw [show (-(-50 : ℝ)) = 50 by norm_num]
    unfold atan2
    rw [if_pos (by norm_num : (0 : ℝ) < 50)]
    simp [Real.arctan_zero]
  have hsq : Real.sqrt ((0 : ℝ) * 0 + (-50) * -50) = 50 := by
    rw [show ((0 : ℝ) * 0 + (-50) * -50) = 50 ^ 2 by norm_num]
    exact Real.sqrt_sq (by norm_num)
  have hmove : handleMove initialState (some 0) (some (-50)) =
      ⟨⟨0, 11.5, 0⟩, 0, 55, 100⟩ := by
    show ({ initialState with
        rotation := atan2 0 (-(-50 : ℝ)),
        speed := min 1 (Real.sqrt ((0 : ℝ) * 0 + (-50) * -50) / 50) * maxSpeed } :
        PlayerState) = _
    rw [hrot, hsq, maxSpeed, initialState]
    norm_num
  have hrun : runEvents [.move (some 0) (some (-50)), .frame] =
      playerFrame ⟨⟨0, 11.5, 0⟩, 0, 55, 100⟩ := by
    show playerFrame (handleMove initialState (some 0) (some (-50))) = _
    rw [hmove]
  have hpos : (playerFrame ⟨⟨0, 11.5, 0⟩, 0, 55, 100⟩).position = ⟨0, 11.5, 55⟩ := by
    rw [playerFrame_position, Vec3.mk.injEq]
    norm_num [Real.sin_zero, Real.cos_zero]
  refine ⟨by rw [hrun]; exact hpos, rfl, by rw [hrun, hpos]; rfl, ?_⟩
  rw [hrun, hpos]
  intro hcontra
  have : (0 : ℝ) = 55 := congrArg Vec3.z hcontra
  norm_num at this

/-- Witness for `input_move_event`: the full-forward event `(0, -50)`
satisfies `x^2 + y^2 ≤ 50^2`, and its published speed lies in `[0, 55]`. -/
theorem input_move_event_witness :
    ((0 : ℝ) ^ 2 + (-50 : ℝ) ^ 2 ≤ 50 ^ 2) ∧
    0 ≤ (handleMove initialState (some 0) (some (-50))).speed ∧
    (handleMove initialState (some 0) (some (-50))).speed ≤ 55 :=
  ⟨by norm_num, (input_move_event initialState 0 (-50)).2.2.1 (by norm_num)⟩

/-- Witness for `texture_synthesis_checkerboard`: at row `0`, the
texels in columns `1` and `2` are horizontally adjacent and differ. -/
theorem texture_synthesis_checkerboard_witness :
    (0 : ℕ) < 32 ∧ (1 : ℕ) < 31 ∧ texelColor (1 + 1) 0 ≠ texelColor 1 0 :=
  ⟨by decide, by decide,
    texture_synthesis_checkerboard.2.2.2.2.2 0 (by decide) 1 (by decide)⟩
